import Mathlib

/-!
Verification of the WebWhatsAPI driver (webwhatsapi/__init__.py) against its
natural-language specification.  The stateless logic of the driver —
message-window synchronization, media decryption, local-storage escaping,
profile persistence, status probing and id lookup — is shallowly embedded
below; bridge calls (the browser-hosted JS API) and external library
primitives (HKDF, the AES block function) enter as explicit parameters.
-/

namespace WebWhatsAPI

/-- A raw message record as returned by the bridge: it carries at least a
Unix `timestamp` (seconds) used by the filtering and sorting logic, plus an
opaque payload standing for every other field. -/
structure RawMessage where
  timestamp : Int
  payload : Nat
deriving DecidableEq

/-- A raw message group as returned by getUnreadMessages /
getAllLatestMessages: the chat envelope record itself, carrying a
list of raw messages under its messages key. -/
structure RawChat where
  chatId : Nat
  messages : List RawMessage
deriving DecidableEq

/-- Modelled from the spec: the typed Message produced by factory_message
(webwhatsapi/objects/message.py is not among the sources).  Per spec §4.2
and §3, classification maps each raw record to exactly one typed variant
preserving the shared capability set; in particular the timestamp attribute
used as the sort key equals the raw record's timestamp. -/
structure Message where
  timestamp : Int
  payload : Nat
deriving DecidableEq

/-- Modelled from the spec: the message classifier factory_message — a pure
total mapping from a raw record to a typed Message preserving identity and
timestamp (spec §4.2: classification never fails and preserves the shared
capability set). -/
def factory_message (m : RawMessage) : Message :=
  ⟨m.timestamp, m.payload⟩

/-- Modelled from the spec: the typed Chat produced by factory_chat
(webwhatsapi/objects/chat.py is not among the sources). -/
structure Chat where
  chatId : Nat
deriving DecidableEq

/-- Modelled from the spec: the chat classifier factory_chat — a pure total
mapping from the raw chat envelope to a typed Chat (spec §4.2). -/
def factory_chat (g : RawChat) : Chat :=
  ⟨g.chatId⟩

/-- Modelled from the spec: MessageGroup — a chat paired with its ordered
message sequence (spec §3). -/
structure MessageGroup where
  chat : Chat
  messages : List Message
deriving DecidableEq

/-- The Boolean sort key used by the two synchronization entry points:
Python sorted(..., key=lambda message: message.timestamp). -/
def msgLE (a b : Message) : Bool :=
  a.timestamp ≤ b.timestamp

/-- int((datetime.now() - timedelta(days=7)).timestamp()) where now is the
current clock already truncated to integer seconds. -/
def seven_days_ago (now : Int) : Int :=
  now - 7 * 86400

/-- get_unread (src/webwhatsapi/__init__.py lines 344-398).  The include_me,
include_notifications and specific_chat parameters only select which bridge
call produces the raw groups, so the embedding takes the raw groups
directly.  Python sorted is a stable sort, modelled by List.mergeSort. -/
def get_unread (now : Int) (filter_week : Bool)
    (raw_message_groups : List RawChat) : List MessageGroup :=
  raw_message_groups.map fun raw_message_group =>
    if filter_week then
      ⟨factory_chat raw_message_group,
        (((raw_message_group.messages.filter fun msg =>
            seven_days_ago now ≤ msg.timestamp).map factory_message).mergeSort msgLE)⟩
    else
      ⟨factory_chat raw_message_group,
        raw_message_group.messages.map factory_message⟩

/-- The date reassignment at the top of get_all_messages_until_date
(src lines 654-658): seven_days_ago when no date is supplied, otherwise
max(date, seven_days_ago). -/
def effective_cutoff (now : Int) (date : Option Int) : Int :=
  match date with
  | none => seven_days_ago now
  | some d => max d (seven_days_ago now)

/-- get_all_messages_until_date (src/webwhatsapi/__init__.py lines 640-681).
The loadEarlierMessagesTillDateAllChats / getAllLatestMessages bridge calls
produce the raw groups, taken here as input. -/
def get_all_messages_until_date (now : Int) (date : Option Int)
    (raw_message_groups : List RawChat) : List MessageGroup :=
  raw_message_groups.map fun raw_message_group =>
    ⟨factory_chat raw_message_group,
      (((raw_message_group.messages.filter fun msg =>
          effective_cutoff now date ≤ msg.timestamp).map factory_message).mergeSort msgLE)⟩

/-- Helper: an element of the zip of a mapped list with the original list is
the image of its second component. -/
theorem fst_eq_of_mem_zip_map {α β : Type} (F : α → β) (l : List α)
    (p : β × α) (h : p ∈ (l.map F).zip l) : p.1 = F p.2 := by
  induction l with
  | nil => simp at h
  | cons a t ih =>
    rw [List.map_cons, List.zip_cons_cons, List.mem_cons] at h
    rcases h with h | h
    · rw [h]
    · exact ih h

/-- Helper: msgLE is transitive. -/
theorem msgLE_trans (a b c : Message) (hab : msgLE a b) (hbc : msgLE b c) :
    msgLE a c := by
  simp only [msgLE, decide_eq_true_eq] at *
  omega

/-- Helper: msgLE is total. -/
theorem msgLE_total (a b : Message) : msgLE a b || msgLE b a := by
  simp only [msgLE, Bool.or_eq_true, decide_eq_true_eq]
  omega

/-- Claim C7: both entry points emit one MessageGroup per raw input group, in
the remote-supplied order, with its classified chat; this holds for every
parameter combination and regardless of how many messages survive the cutoff
filter, so groups left with zero retained messages are still emitted. -/
theorem sync_emits_every_group (now : Int) (filter_week : Bool) (date : Option Int)
    (raw_message_groups : List RawChat) :
    (get_unread now filter_week raw_message_groups).map MessageGroup.chat
        = raw_message_groups.map factory_chat ∧
    (get_unread now filter_week raw_message_groups).length
        = raw_message_groups.length ∧
    (get_all_messages_until_date now date raw_message_groups).map MessageGroup.chat
        = raw_message_groups.map factory_chat ∧
    (get_all_messages_until_date now date raw_message_groups).length
        = raw_message_groups.length := by
  refine ⟨?_, ?_, ?_, ?_⟩
  · cases filter_week <;> simp [get_unread]
  · simp [get_unread]
  · simp [get_all_messages_until_date]
  · simp [get_all_messages_until_date]

/-- Claim C2: for every requested date (and for none), the messages of each
output group of get_all_messages_until_date are exactly (up to the sort
permutation) the classified messages whose raw timestamp is at least the
effective cutoff max(requestedDate, now - 7 days) (now - 7 days when no date
is given); consequently every retained message is from the last 7 days, in
particular for a requested date 30 days in the past. -/
theorem get_all_messages_until_date_cutoff (now : Int) (date : Option Int)
    (raw_message_groups : List RawChat) (mg : MessageGroup) (g : RawChat)
    (hmem : (mg, g) ∈ (get_all_messages_until_date now date raw_message_groups).zip
        raw_message_groups) :
    (∀ d, effective_cutoff now (some d) = max d (now - 7 * 86400)) ∧
    effective_cutoff now none = now - 7 * 86400 ∧
    mg.messages.Perm ((g.messages.filter fun msg =>
        effective_cutoff now date ≤ msg.timestamp).map factory_message) ∧
    ∀ m ∈ mg.messages, now - 7 * 86400 ≤ m.timestamp := by
  have h1 := fst_eq_of_mem_zip_map _ raw_message_groups (mg, g) hmem
  have h2 : mg.messages = ((g.messages.filter fun msg =>
      effective_cutoff now date ≤ msg.timestamp).map factory_message).mergeSort msgLE :=
    congrArg MessageGroup.messages h1
  refine ⟨fun d => rfl, rfl, ?_, ?_⟩
  · rw [h2]
    exact List.mergeSort_perm _ _
  · intro m hm
    rw [h2, List.mem_mergeSort] at hm
    obtain ⟨raw, hraw, hfac⟩ := List.mem_map.mp hm
    obtain ⟨_, hts⟩ := List.mem_filter.mp hraw
    have hts' : effective_cutoff now date ≤ raw.timestamp := by
      simpa using hts
    have hcut : seven_days_ago now ≤ effective_cutoff now date := by
      cases date with
      | none => exact le_refl _
      | some d => exact le_max_right _ _
    have hmt : m.timestamp = raw.timestamp := by rw [← hfac]; rfl
    simp only [seven_days_ago] at hcut
    omega

/-- Claim C3 (amended): in the sorting entry points — get_unread with
filter_week = True, and get_all_messages_until_date — the messages of each
emitted group are in non-decreasing timestamp order, and any two retained
messages in arrival order whose timestamps are in (weak) order, in
particular ties, keep that arrival order in the output (stability of the
sort); with filter_week = False, however, get_unread performs no sort and
emits the classified messages in arrival order. -/
theorem sync_sorted_amended (now : Int) (date : Option Int)
    (raw_message_groups : List RawChat) :
    (∀ p ∈ (get_unread now true raw_message_groups).zip raw_message_groups,
      (p.1 : MessageGroup).messages.Pairwise
          (fun a b => a.timestamp ≤ b.timestamp) ∧
      ∀ a b : Message, msgLE a b = true →
        [a, b].Sublist ((p.2.messages.filter fun msg =>
            seven_days_ago now ≤ msg.timestamp).map factory_message) →
        [a, b].Sublist p.1.messages) ∧
    (∀ p ∈ (get_all_messages_until_date now date raw_message_groups).zip
        raw_message_groups,
      (p.1 : MessageGroup).messages.Pairwise
          (fun a b => a.timestamp ≤ b.timestamp) ∧
      ∀ a b : Message, msgLE a b = true →
        [a, b].Sublist ((p.2.messages.filter fun msg =>
            effective_cutoff now date ≤ msg.timestamp).map factory_message) →
        [a, b].Sublist p.1.messages) ∧
    (∀ p ∈ (get_unread now false raw_message_groups).zip raw_message_groups,
      (p.1 : MessageGroup).messages = p.2.messages.map factory_message) := by
  refine ⟨?_, ?_, ?_⟩
  · intro p hp
    have h1 := fst_eq_of_mem_zip_map _ raw_message_groups p hp
    have h2 : p.1.messages = ((p.2.messages.filter fun msg =>
        seven_days_ago now ≤ msg.timestamp).map factory_message).mergeSort msgLE := by
      rw [h1]
      simp [get_unread]
    constructor
    · rw [h2]
      exact (List.sorted_mergeSort msgLE_trans msgLE_total _).imp
        (fun h => by simpa [msgLE] using h)
    · intro a b hab hsub
      rw [h2]
      exact List.pair_sublist_mergeSort msgLE_trans msgLE_total hab hsub
  · intro p hp
    have h1 := fst_eq_of_mem_zip_map _ raw_message_groups p hp
    have h2 : p.1.messages = ((p.2.messages.filter fun msg =>
        effective_cutoff now date ≤ msg.timestamp).map factory_message).mergeSort
        msgLE := by
      rw [h1]
    constructor
    · rw [h2]
      exact (List.sorted_mergeSort msgLE_trans msgLE_total _).imp
        (fun h => by simpa [msgLE] using h)
    · intro a b hab hsub
      rw [h2]
      exact List.pair_sublist_mergeSort msgLE_trans msgLE_total hab hsub
  · intro p hp
    have h1 := fst_eq_of_mem_zip_map _ raw_message_groups p hp
    rw [h1]
    simp

/-- Witness for get_all_messages_until_date_cutoff: a date 30 days in the
past (now = 10000000, date = 7408000) is clamped to now - 7 days = 9395200;
the message at 9999900 survives, the one at 8000000 is dropped. -/
theorem get_all_messages_until_date_cutoff_witness :
    ((⟨⟨1⟩, [⟨9999900, 0⟩]⟩ : MessageGroup),
        (⟨1, [⟨9999900, 0⟩, ⟨8000000, 1⟩]⟩ : RawChat)) ∈
      (get_all_messages_until_date 10000000 (some 7408000)
          [⟨1, [⟨9999900, 0⟩, ⟨8000000, 1⟩]⟩]).zip
        [⟨1, [⟨9999900, 0⟩, ⟨8000000, 1⟩]⟩] ∧
    ∀ m ∈ ([⟨9999900, 0⟩] : List Message), (10000000 : Int) - 7 * 86400 ≤ m.timestamp := by
  have hmem : ((⟨⟨1⟩, [⟨9999900, 0⟩]⟩ : MessageGroup),
      (⟨1, [⟨9999900, 0⟩, ⟨8000000, 1⟩]⟩ : RawChat)) ∈
      (get_all_messages_until_date 10000000 (some 7408000)
          [⟨1, [⟨9999900, 0⟩, ⟨8000000, 1⟩]⟩]).zip
        [⟨1, [⟨9999900, 0⟩, ⟨8000000, 1⟩]⟩] := by
    norm_num [get_all_messages_until_date, effective_cutoff, seven_days_ago,
      factory_chat, factory_message, List.filter]
  exact ⟨hmem, (get_all_messages_until_date_cutoff 10000000 (some 7408000)
    [⟨1, [⟨9999900, 0⟩, ⟨8000000, 1⟩]⟩] _ _ hmem).2.2.2⟩

/-- Counterexample to claim C3 as stated: with filter_week = False,
get_unread does not sort, so a raw group whose messages arrive as
timestamps 10, 5 is emitted in that (decreasing) order. -/
theorem get_unread_unsorted_counterexample :
    (get_unread 1000000 false [⟨1, [⟨10, 0⟩, ⟨5, 1⟩]⟩]).map MessageGroup.messages
        = [[⟨10, 0⟩, ⟨5, 1⟩]] ∧
    ¬ ([(⟨10, 0⟩ : Message), ⟨5, 1⟩].Pairwise
        fun a b : Message => a.timestamp ≤ b.timestamp) := by
  constructor
  · rfl
  · intro h
    have h10 := (List.pairwise_cons.mp h).1 ⟨5, 1⟩ (by simp)
    simp only [] at h10
    omega

/-- Witness for sync_sorted_amended: with filter_week = True a singleton
surviving message list is emitted sorted. -/
theorem sync_sorted_amended_witness :
    ((⟨⟨1⟩, [⟨200, 0⟩]⟩ : MessageGroup), (⟨1, [⟨200, 0⟩]⟩ : RawChat)) ∈
      (get_unread 604900 true [⟨1, [⟨200, 0⟩]⟩]).zip [⟨1, [⟨200, 0⟩]⟩] ∧
    (([⟨200, 0⟩] : List Message).Pairwise
        fun a b : Message => a.timestamp ≤ b.timestamp) := by
  have hmem : ((⟨⟨1⟩, [⟨200, 0⟩]⟩ : MessageGroup), (⟨1, [⟨200, 0⟩]⟩ : RawChat)) ∈
      (get_unread 604900 true [⟨1, [⟨200, 0⟩]⟩]).zip [⟨1, [⟨200, 0⟩]⟩] := by
    norm_num [get_unread, seven_days_ago, factory_chat, factory_message, List.filter]
  exact ⟨hmem, ((sync_sorted_amended 604900 none [⟨1, [⟨200, 0⟩]⟩]).1 _ hmem).1⟩

/-! ### Media decryption (download_media, src lines 587-608)

Bytes are Nats; the base64 / hex decodings at the call boundary are taken as
already applied, so media_key and the app-info constant enter as byte lists.
The HKDFv3 derivation (axolotl library) and the AES block function
(cryptography library) are external primitives and enter as parameters; the
CBC chaining and the no-padding finalize of the cryptography library's
Cipher(AES, CBC) — decryptor.update(e_file) + decryptor.finalize(), which
raises ValueError unless the input length is a multiple of the 16-byte
block — are modelled concretely. -/

/-- Bytewise xor of two equally long byte strings (CBC whitening). -/
def xorBytes (a b : List Nat) : List Nat :=
  List.zipWith (fun x y => x ^^^ y) a b

/-- Concatenation of 16-byte blocks back into a byte string. -/
def joinBlocks (bs : List (List Nat)) : List Nat :=
  bs.flatten

/-- Fuel-driven split of a byte string into 16-byte blocks (the last block
may be short if the length is not a multiple of 16). -/
def toBlocksAux : Nat → List Nat → List (List Nat)
  | _, [] => []
  | 0, _ :: _ => []
  | fuel + 1, a :: rest => ((a :: rest).take 16) :: toBlocksAux fuel ((a :: rest).drop 16)

/-- Split of a byte string into 16-byte blocks. -/
def toBlocks (l : List Nat) : List (List Nat) :=
  toBlocksAux l.length l

/-- CBC-mode encryption over a block function E: each plaintext block is
xored with the previous ciphertext block (initially the IV) and passed
through E. -/
def cbcEncryptBlocks (E : List Nat → List Nat) : List Nat → List (List Nat) → List (List Nat)
  | _, [] => []
  | iv, b :: bs => E (xorBytes iv b) :: cbcEncryptBlocks E (E (xorBytes iv b)) bs

/-- CBC-mode decryption over a block function D: each ciphertext block is
passed through D and xored with the previous ciphertext block (initially
the IV). -/
def cbcDecryptBlocks (D : List Nat → List Nat) : List Nat → List (List Nat) → List (List Nat)
  | _, [] => []
  | iv, c :: cs => xorBytes iv (D c) :: cbcDecryptBlocks D c cs

/-- parts[0] of ByteUtil.split(derivative, 16, 32): the 16-byte IV window. -/
def derivedIV (derivative : List Nat) : List Nat :=
  derivative.take 16

/-- parts[1] of ByteUtil.split(derivative, 16, 32): the 32-byte cipher-key
window. -/
def derivedCipherKey (derivative : List Nat) : List Nat :=
  (derivative.drop 16).take 32

/-- download_media (src lines 587-608) on the non-preview path: derive 112
bytes with HKDFv3 from the decoded media key and the type-selected app-info
constant, split off the IV and cipher-key windows, strip the trailing
10-byte MAC tag (Python file_data[:-10], which is empty when the blob is
shorter than 10 bytes), then AES-CBC-decrypt with a full finalize.  The
finalize of the no-padding CBC cipher raises ValueError when the trimmed
length is not a multiple of the block size. -/
def download_media (hkdf : List Nat → List Nat → Nat → List Nat)
    (aesDecryptBlock : List Nat → List Nat → List Nat)
    (media_key crypt_key_info file_data : List Nat) : Except String (List Nat) :=
  let derivative := hkdf media_key crypt_key_info 112
  let iv := derivedIV derivative
  let cipher_key := derivedCipherKey derivative
  let e_file := file_data.take (file_data.length - 10)
  if e_file.length % 16 = 0 then
    .ok (joinBlocks (cbcDecryptBlocks (aesDecryptBlock cipher_key) iv (toBlocks e_file)))
  else
    .error "ValueError: the length of the provided data is not a multiple of the block length"

/-- Helper: toBlocksAux does not depend on the fuel once it covers the
length of the list. -/
theorem toBlocksAux_fuel {f₁ f₂ : Nat} : ∀ l : List Nat, l.length ≤ f₁ → l.length ≤ f₂ →
    toBlocksAux f₁ l = toBlocksAux f₂ l := by
  induction f₁ generalizing f₂ with
  | zero =>
    intro l h1 _
    have : l = [] := List.eq_nil_of_length_eq_zero (Nat.le_zero.mp h1)
    subst this
    cases f₂ <;> rfl
  | succ f ih =>
    intro l h1 h2
    cases l with
    | nil => cases f₂ <;> rfl
    | cons a rest =>
      cases f₂ with
      | zero => simp at h2
      | succ f' =>
        simp only [toBlocksAux]
        congr 1
        exact ih _ (by simp at h1 ⊢; omega) (by simp at h2 ⊢; omega)

/-- Helper: joining the blocks of a byte string gives the string back. -/
theorem joinBlocks_toBlocks (l : List Nat) : joinBlocks (toBlocks l) = l := by
  suffices h : ∀ (fuel : Nat) (l : List Nat), l.length ≤ fuel →
      joinBlocks (toBlocksAux fuel l) = l by
    exact h l.length l (le_refl _)
  intro fuel
  induction fuel with
  | zero =>
    intro l h
    have : l = [] := List.eq_nil_of_length_eq_zero (Nat.le_zero.mp h)
    subst this
    rfl
  | succ f ih =>
    intro l h
    cases l with
    | nil => rfl
    | cons a rest =>
      simp only [toBlocksAux, joinBlocks, List.flatten_cons]
      have := ih ((a :: rest).drop 16) (by simp at h ⊢; omega)
      simp only [joinBlocks] at this
      rw [this, List.take_append_drop]

/-- Helper: when the length is a positive multiple of 16 every block has
exactly 16 bytes. -/
theorem toBlocks_block_length (l : List Nat) (hl : l.length % 16 = 0) :
    ∀ b ∈ toBlocks l, b.length = 16 := by
  suffices h : ∀ (fuel : Nat) (l : List Nat), l.length ≤ fuel → l.length % 16 = 0 →
      ∀ b ∈ toBlocksAux fuel l, b.length = 16 by
    exact h l.length l (le_refl _) hl
  intro fuel
  induction fuel with
  | zero =>
    intro l h _ b hb
    have : l = [] := List.eq_nil_of_length_eq_zero (Nat.le_zero.mp h)
    subst this
    simp [toBlocksAux] at hb
  | succ f ih =>
    intro l h hmod b hb
    cases l with
    | nil => simp [toBlocksAux] at hb
    | cons a rest =>
      simp only [toBlocksAux, List.mem_cons] at hb
      have h16 : 16 ≤ (a :: rest).length := by
        rcases Nat.lt_or_ge (a :: rest).length 16 with hlt | hge
        · exfalso
          have hmodeq : (a :: rest).length % 16 = (a :: rest).length :=
            Nat.mod_eq_of_lt hlt
          simp only [List.length_cons] at hmodeq hmod hlt
          omega
        · exact hge
      rcases hb with hb | hb
      · rw [hb, List.length_take]
        omega
      · exact ih _ (by simp at h ⊢; omega)
          (by rw [List.length_drop]; omega) b hb

/-- Helper: a block cipher whose block function maps 16-byte blocks to
16-byte blocks produces 16-byte CBC ciphertext blocks. -/
theorem cbcEncryptBlocks_block_length (E : List Nat → List Nat)
    (hE : ∀ b : List Nat, b.length = 16 → (E b).length = 16) :
    ∀ (bs : List (List Nat)) (iv : List Nat), iv.length = 16 →
      (∀ b ∈ bs, b.length = 16) →
      ∀ c ∈ cbcEncryptBlocks E iv bs, c.length = 16 := by
  intro bs
  induction bs with
  | nil => intro iv _ _ c hc; simp [cbcEncryptBlocks] at hc
  | cons b bs ih =>
    intro iv hiv hbs c hc
    have hb : b.length = 16 := hbs b (by simp)
    have hx : (xorBytes iv b).length = 16 := by
      simp [xorBytes, hiv, hb]
    have hEb : (E (xorBytes iv b)).length = 16 := hE _ hx
    simp only [cbcEncryptBlocks, List.mem_cons] at hc
    rcases hc with hc | hc
    · rw [hc]; exact hEb
    · exact ih _ hEb (fun x hx => hbs x (by simp [hx])) c hc

/-- Helper: xor of byte strings is self-inverse. -/
theorem xorBytes_xorBytes (a b : List Nat) (h : a.length = b.length) :
    xorBytes a (xorBytes a b) = b := by
  induction a generalizing b with
  | nil =>
    cases b with
    | nil => rfl
    | cons y t => simp at h
  | cons x a ih =>
    cases b with
    | nil => simp at h
    | cons y b =>
      simp only [xorBytes, List.zipWith_cons_cons, List.cons.injEq]
      refine ⟨?_, ?_⟩
      · rw [← Nat.xor_assoc, Nat.xor_self, Nat.zero_xor]
      · have hlen : a.length = b.length := by simp at h; omega
        simpa [xorBytes] using ih b hlen

/-- Helper: CBC decryption inverts CBC encryption when the block function
inverts on 16-byte blocks. -/
theorem cbcDecrypt_cbcEncrypt (E D : List Nat → List Nat)
    (hE : ∀ b : List Nat, b.length = 16 → (E b).length = 16)
    (hD : ∀ b : List Nat, b.length = 16 → D (E b) = b) :
    ∀ (bs : List (List Nat)) (iv : List Nat), iv.length = 16 →
      (∀ b ∈ bs, b.length = 16) →
      cbcDecryptBlocks D iv (cbcEncryptBlocks E iv bs) = bs := by
  intro bs
  induction bs with
  | nil => intro iv _ _; rfl
  | cons b bs ih =>
    intro iv hiv hbs
    have hb : b.length = 16 := hbs b (by simp)
    have hx : (xorBytes iv b).length = 16 := by simp [xorBytes, hiv, hb]
    simp only [cbcEncryptBlocks, cbcDecryptBlocks]
    rw [hD _ hx, xorBytes_xorBytes iv b (by omega)]
    rw [ih (E (xorBytes iv b)) (hE _ hx) (fun x hxm => hbs x (by simp [hxm]))]

/-- Helper: joining 16-byte blocks yields a length that is a multiple
of 16. -/
theorem joinBlocks_length (bs : List (List Nat)) (h : ∀ b ∈ bs, b.length = 16) :
    (joinBlocks bs).length = 16 * bs.length := by
  induction bs with
  | nil => rfl
  | cons b bs ih =>
    have hb : b.length = 16 := h b (by simp)
    have ht := ih (fun x hx => h x (by simp [hx]))
    simp only [joinBlocks, List.flatten_cons, List.length_append, List.length_cons] at *
    omega

/-- Helper: splitting a join of 16-byte blocks recovers the blocks. -/
theorem toBlocks_joinBlocks (bs : List (List Nat)) (h : ∀ b ∈ bs, b.length = 16) :
    toBlocks (joinBlocks bs) = bs := by
  suffices hgen : ∀ (fuel : Nat) (bs : List (List Nat)), (∀ b ∈ bs, b.length = 16) →
      (joinBlocks bs).length ≤ fuel → toBlocksAux fuel (joinBlocks bs) = bs by
    exact hgen _ bs h (le_refl _)
  intro fuel
  induction fuel with
  | zero =>
    intro bs h hle
    cases bs with
    | nil => rfl
    | cons b bs =>
      exfalso
      have hb : b.length = 16 := h b (by simp)
      simp [joinBlocks, hb] at hle
  | succ f ih =>
    intro bs h hle
    cases bs with
    | nil => rfl
    | cons b bs =>
      have hb : b.length = 16 := h b (by simp)
      have hrest : ∀ x ∈ bs, x.length = 16 := fun x hx => h x (by simp [hx])
      obtain ⟨x, b', rfl⟩ : ∃ x b', b = x :: b' := by
        cases b with
        | nil => simp at hb
        | cons x b' => exact ⟨x, b', rfl⟩
      have hjoin : joinBlocks ((x :: b') :: bs) = x :: (b' ++ joinBlocks bs) := by
        simp [joinBlocks]
      rw [hjoin]
      simp only [toBlocksAux]
      have hsplit : x :: (b' ++ joinBlocks bs) = (x :: b') ++ joinBlocks bs := by
        simp
      have htake : (x :: (b' ++ joinBlocks bs)).take 16 = x :: b' := by
        rw [hsplit]
        exact List.take_left' hb
      have hdrop : (x :: (b' ++ joinBlocks bs)).drop 16 = joinBlocks bs := by
        rw [hsplit]
        exact List.drop_left' hb
      rw [htake, hdrop]
      have hfuel : (joinBlocks bs).length ≤ f := by
        rw [hjoin] at hle
        simp only [List.length_cons, List.length_append] at hle
        simp only [List.length_cons] at hb
        omega
      rw [ih bs hrest hfuel]

/-- Claim C1: for a blob built by AES-CBC-encrypting a (block-aligned)
plaintext under the IV/cipher-key windows of the 112-byte HKDF derivative of
the decoded mediaKey and type-selected app-info constant, with a 10-byte MAC
tag appended, download_media (preview not requested) returns exactly the
original plaintext: it re-derives the same windows, strips the final 10
bytes and CBC-decrypts the remainder with a full finalize.  The HKDF and the
AES block encryption/decryption pair are the external primitives, assumed
only to produce 112 bytes, preserve the 16-byte block size, and invert each
other on blocks. -/
theorem download_media_roundtrip
    (hkdf : List Nat → List Nat → Nat → List Nat)
    (E D : List Nat → List Nat → List Nat)
    (media_key crypt_key_info plaintext tag : List Nat)
    (hderiv : (hkdf media_key crypt_key_info 112).length = 112)
    (hpt : plaintext.length % 16 = 0)
    (htag : tag.length = 10)
    (hE : ∀ b : List Nat, b.length = 16 →
      (E (derivedCipherKey (hkdf media_key crypt_key_info 112)) b).length = 16)
    (hD : ∀ b : List Nat, b.length = 16 →
      D (derivedCipherKey (hkdf media_key crypt_key_info 112))
        (E (derivedCipherKey (hkdf media_key crypt_key_info 112)) b) = b) :
    download_media hkdf D media_key crypt_key_info
      (joinBlocks (cbcEncryptBlocks
          (E (derivedCipherKey (hkdf media_key crypt_key_info 112)))
          (derivedIV (hkdf media_key crypt_key_info 112)) (toBlocks plaintext)) ++ tag)
      = .ok plaintext := by
  have hiv : (derivedIV (hkdf media_key crypt_key_info 112)).length = 16 := by
    simp [derivedIV, List.length_take, hderiv]
  have hblocks : ∀ b ∈ toBlocks plaintext, b.length = 16 :=
    toBlocks_block_length plaintext hpt
  have hcblocks : ∀ c ∈ cbcEncryptBlocks
      (E (derivedCipherKey (hkdf media_key crypt_key_info 112)))
      (derivedIV (hkdf media_key crypt_key_info 112)) (toBlocks plaintext),
      c.length = 16 :=
    cbcEncryptBlocks_block_length _ hE _ _ hiv hblocks
  set cblob := joinBlocks (cbcEncryptBlocks
      (E (derivedCipherKey (hkdf media_key crypt_key_info 112)))
      (derivedIV (hkdf media_key crypt_key_info 112)) (toBlocks plaintext)) with hcblob
  have hclen : cblob.length % 16 = 0 := by
    rw [hcblob, joinBlocks_length _ hcblocks]
    omega
  have hlen10 : (cblob ++ tag).length - 10 = cblob.length := by
    simp [List.length_append, htag]
  have hstrip : (cblob ++ tag).take ((cblob ++ tag).length - 10) = cblob := by
    rw [hlen10]
    exact List.take_left' rfl
  unfold download_media
  simp only [hstrip, hclen, reduceIte]
  rw [hcblob, toBlocks_joinBlocks _ hcblocks,
    cbcDecrypt_cbcEncrypt _ _ hE hD _ _ hiv hblocks,
    joinBlocks_toBlocks]

/-- Witness for download_media_roundtrip at a concrete instantiation: HKDF
returning a constant keystream and byte-reversal as the (involutive) block
cipher; plaintext one block of 3s, tag ten 0s. -/
theorem download_media_roundtrip_witness :
    (List.replicate 16 (3 : Nat)).length % 16 = 0 ∧
    download_media (fun _ _ n => List.replicate n 7) (fun _ b => b.reverse) [1] [2]
      (joinBlocks (cbcEncryptBlocks
          ((fun _ b => b.reverse)
            (derivedCipherKey ((fun _ _ n => List.replicate n 7) [1] [2] 112)))
          (derivedIV ((fun _ _ n => List.replicate n 7) [1] [2] 112))
          (toBlocks (List.replicate 16 3))) ++ List.replicate 10 0)
      = .ok (List.replicate 16 3) := by
  refine ⟨by norm_num, ?_⟩
  exact download_media_roundtrip (fun _ _ n => List.replicate n 7)
    (fun _ b => b.reverse) (fun _ b => b.reverse) [1] [2] (List.replicate 16 3)
    (List.replicate 10 0) (by simp) (by norm_num) (by simp)
    (fun b hb => by simp [hb]) (fun b hb => by simp)

/-- Counterexample to claim C8 as stated: a 5-byte downloaded blob is not
rejected.  Python file_data[:-10] on fewer than 10 bytes yields the empty
string, the empty string is a multiple of the block length, so
download_media returns an empty plaintext as a success — no MediaDecodeError
(indeed the code defines no such class). -/
theorem download_media_short_blob_counterexample :
    download_media (fun _ _ n => List.replicate n 7) (fun _ b => b) [1] [2]
      [1, 2, 3, 4, 5] = .ok [] := by
  rfl

/-- Claim C8 (amended): a downloaded blob of fewer than 10 bytes is not an
error — the 10-byte strip leaves an empty ciphertext and download_media
returns an empty plaintext successfully; a stripped blob whose length is not
a multiple of the AES block size makes the cipher finalize fail with the
underlying library's ValueError.  The code defines no MediaDecodeError or
CryptoError classes; HKDF/cipher construction failures would likewise
propagate as the underlying libraries' own exceptions. -/
theorem download_media_malformed
    (hkdf : List Nat → List Nat → Nat → List Nat)
    (D : List Nat → List Nat → List Nat)
    (media_key crypt_key_info file_data : List Nat) :
    (file_data.length < 10 →
      download_media hkdf D media_key crypt_key_info file_data = .ok []) ∧
    ((file_data.length - 10) % 16 ≠ 0 →
      download_media hkdf D media_key crypt_key_info file_data =
        .error "ValueError: the length of the provided data is not a multiple of the block length") := by
  have hlen : (file_data.take (file_data.length - 10)).length
      = file_data.length - 10 := by
    rw [List.length_take]
    omega
  constructor
  · intro hshort
    have h0 : file_data.length - 10 = 0 := by omega
    simp [download_media, h0, toBlocks, toBlocksAux, cbcDecryptBlocks, joinBlocks]
  · intro hmod
    unfold download_media
    simp only [hlen, hmod, reduceIte, if_neg]

/-- Witness for download_media_malformed: a 3-byte blob yields an empty
success, a 27-byte blob (17 bytes after the strip) fails finalize. -/
theorem download_media_malformed_witness :
    download_media (fun _ _ n => List.replicate n 7) (fun _ b => b) [1] [2]
      [1, 2, 3] = .ok [] ∧
    download_media (fun _ _ n => List.replicate n 7) (fun _ b => b) [1] [2]
      (List.replicate 27 0) =
      .error "ValueError: the length of the provided data is not a multiple of the block length" := by
  exact ⟨(download_media_malformed _ _ _ _ _).1 (by norm_num),
    (download_media_malformed _ _ _ _ _).2 (by norm_num)⟩

/-! ### Local storage persistence (get_local_storage / set_local_storage,
src lines 107-116)

get_local_storage escapes every string value with Python's unicode-escape
codec — keys are NOT escaped — and connect() restores the snapshot through
set_local_storage, which splices each key and each escaped value verbatim
into single-quoted JavaScript string literals of a setItem call.  What
lands in the page's storage is therefore the JavaScript parse of those
literals: JS escape processing is the only unescaping that ever happens.
Strings are modelled as lists of Unicode codepoints. -/

/-- Codepoint of the lowercase hex digit for d < 16 (unicode-escape emits
lowercase hex). -/
def hexDigitChar (d : Nat) : Nat :=
  if d < 10 then 48 + d else 87 + d

/-- Big-endian fixed-width rendering of n as k hex digit codepoints. -/
def hexDigits : Nat → Nat → List Nat
  | 0, _ => []
  | k + 1, n => hexDigits k (n / 16) ++ [hexDigitChar (n % 16)]

/-- Python's unicode-escape codec on a single codepoint: backslash, tab,
newline and carriage return get two-character escapes, printable ASCII is
kept verbatim (including both quote characters), every other codepoint
becomes a hex escape of the shape that fits it. -/
def pyEscapeChar (c : Nat) : List Nat :=
  if c = 92 then [92, 92]
  else if c = 9 then [92, 116]
  else if c = 10 then [92, 110]
  else if c = 13 then [92, 114]
  else if 32 ≤ c ∧ c ≤ 126 then [c]
  else if c < 256 then 92 :: 120 :: hexDigits 2 c
  else if c < 65536 then 92 :: 117 :: hexDigits 4 c
  else 92 :: 85 :: hexDigits 8 c

/-- v.encode('unicode-escape').decode('ascii') on a whole string. -/
def pyUnicodeEscape (s : List Nat) : List Nat :=
  (s.map pyEscapeChar).flatten

/-- Value of a hex digit codepoint in a JavaScript escape (either case). -/
def hexVal (c : Nat) : Option Nat :=
  if 48 ≤ c ∧ c ≤ 57 then some (c - 48)
  else if 97 ≤ c ∧ c ≤ 102 then some (c - 87)
  else if 65 ≤ c ∧ c ≤ 70 then some (c - 55)
  else none

/-- The JavaScript decoding of the payload of one escape sequence: the
codepoints produced by the escape whose first character after the backslash
is e, reading hex digits from the following input rest1 when needed.
Covers single escape characters, the NUL escape, \xNN and \uNNNN hex
escapes, and line continuations; the identity rule for non-escape
characters handles \' \" \\ and also \U, since JavaScript has no
capital-U escape; legacy octal escapes are outside the modelled fragment. -/
def jsEscapeHead (e : Nat) (rest1 : List Nat) : Option (List Nat) :=
  if e = 110 then some [10]
  else if e = 116 then some [9]
  else if e = 114 then some [13]
  else if e = 98 then some [8]
  else if e = 102 then some [12]
  else if e = 118 then some [11]
  else if e = 48 then some [0]
  else if 49 ≤ e ∧ e ≤ 57 then none
  else if e = 120 then
    (rest1.head?.bind hexVal).bind fun a =>
      ((rest1.drop 1).head?.bind hexVal).map fun b => [16 * a + b]
  else if e = 117 then
    (rest1.head?.bind hexVal).bind fun a =>
      ((rest1.drop 1).head?.bind hexVal).bind fun b =>
        ((rest1.drop 2).head?.bind hexVal).bind fun c2 =>
          ((rest1.drop 3).head?.bind hexVal).map fun d =>
            [4096 * a + 256 * b + 16 * c2 + d]
  else if e = 10 ∨ e = 8232 ∨ e = 8233 then some []
  else if e = 13 then some []
  else some [e]

/-- How much input an escape sequence consumes beyond the character e
itself: two hex digits for \xNN, four for \uNNNN, the newline of a \r\n
line continuation, nothing otherwise. -/
def jsEscapeRest (e : Nat) (rest1 : List Nat) : List Nat :=
  if e = 120 then rest1.drop 2
  else if e = 117 then rest1.drop 4
  else if e = 13 ∧ rest1.head? = some 10 then rest1.tail
  else rest1

/-- The JavaScript decoding of one escape sequence (the input starts right
after the backslash): the produced codepoints and the remaining input. -/
def jsEscape : List Nat → Option (List Nat × List Nat)
  | [] => none
  | e :: rest1 => (jsEscapeHead e rest1).map fun out => (out, jsEscapeRest e rest1)

/-- Modelled from the spec: the JavaScript parse of the body of a
single-quoted string literal, which is what turns the text spliced into the
setItem script back into the stored string.  An unescaped quote terminates
the literal early leaving trailing garbage — the injected script is then
malformed — and a raw line terminator is illegal inside a string literal,
so both make the parse fail.  Fuel-driven so the parse is a structural
recursion; the fuel never runs out when it starts at the input length. -/
def jsStringBodyAux : Nat → List Nat → Option (List Nat)
  | _, [] => some []
  | 0, _ :: _ => none
  | fuel + 1, c :: rest =>
    if c = 39 ∨ c = 10 ∨ c = 13 ∨ c = 8232 ∨ c = 8233 then none
    else if c = 92 then
      (jsEscape rest).bind fun p => (jsStringBodyAux fuel p.2).map (fun s => p.1 ++ s)
    else (jsStringBodyAux fuel rest).map (fun s => c :: s)

/-- The JavaScript parse of a single-quoted string literal body. -/
def jsStringBody (l : List Nat) : Option (List Nat) :=
  jsStringBodyAux l.length l

/-- get_local_storage (src 107-112): every value is unicode-escaped, keys
are returned untouched. -/
def get_local_storage (storage : List (List Nat × List Nat)) :
    List (List Nat × List Nat) :=
  storage.map fun kv => (kv.1, pyUnicodeEscape kv.2)

/-- One setItem of set_local_storage (src 114-116): the key and the value
are spliced into single-quoted literals; the stored pair is the JavaScript
parse of both bodies, and the splice fails if either body is malformed. -/
def setItemStored (k v : List Nat) : Option (List Nat × List Nat) :=
  match jsStringBody k, jsStringBody v with
  | some k2, some v2 => some (k2, v2)
  | _, _ => none

/-- set_local_storage (src 114-116) across a whole snapshot: the storage
contents after the injected script runs, none if the script is malformed. -/
def set_local_storage (data : List (List Nat × List Nat)) :
    Option (List (List Nat × List Nat)) :=
  data.mapM fun kv => setItemStored kv.1 kv.2

/-- The save/restore round trip of a local-storage mapping: escape values
via get_local_storage, then re-inject via set_local_storage. -/
def localStorage_round_trip (m : List (List Nat × List Nat)) :
    Option (List (List Nat × List Nat)) :=
  set_local_storage (get_local_storage m)

/-- Helper: consuming an escape never leaves more input than given. -/
theorem jsEscapeRest_le (e : Nat) (rest1 : List Nat) :
    (jsEscapeRest e rest1).length ≤ rest1.length := by
  unfold jsEscapeRest
  split_ifs <;> simp [List.length_drop, List.length_tail]

/-- Helper: decoding one escape never leaves more input than it was
given. -/
theorem jsEscape_shrinks (rest out rest2 : List Nat)
    (h : jsEscape rest = some (out, rest2)) : rest2.length ≤ rest.length := by
  cases rest with
  | nil => simp [jsEscape] at h
  | cons e rest1 =>
    simp only [jsEscape, Option.map_eq_some'] at h
    obtain ⟨out', -, h2⟩ := h
    have hr : rest2 = jsEscapeRest e rest1 := by
      have := congrArg Prod.snd h2
      simpa using this.symm
    rw [hr]
    calc (jsEscapeRest e rest1).length ≤ rest1.length := jsEscapeRest_le e rest1
      _ ≤ (e :: rest1).length := by simp

/-- Helper: the fuel of jsStringBodyAux is irrelevant once it covers the
input length. -/
theorem jsStringBodyAux_fuel : ∀ (f1 f2 : Nat) (l : List Nat),
    l.length ≤ f1 → l.length ≤ f2 →
    jsStringBodyAux f1 l = jsStringBodyAux f2 l := by
  intro f1
  induction f1 with
  | zero =>
    intro f2 l h1 _
    have : l = [] := List.eq_nil_of_length_eq_zero (Nat.le_zero.mp h1)
    subst this
    cases f2 <;> rfl
  | succ f ih =>
    intro f2 l h1 h2
    cases l with
    | nil => cases f2 <;> rfl
    | cons c rest =>
      cases f2 with
      | zero => simp at h2
      | succ f2' =>
        simp only [List.length_cons] at h1 h2
        simp only [jsStringBodyAux]
        by_cases hc : c = 39 ∨ c = 10 ∨ c = 13 ∨ c = 8232 ∨ c = 8233
        · simp [hc]
        · simp only [hc, if_false]
          by_cases h92 : c = 92
          · simp only [h92, if_pos]
            rcases hesc : jsEscape rest with _ | ⟨out, rest2⟩
            · rfl
            · have hle := jsEscape_shrinks rest out rest2 hesc
              show Option.map (fun s => out ++ s) (jsStringBodyAux f rest2)
                  = Option.map (fun s => out ++ s) (jsStringBodyAux f2' rest2)
              rw [ih f2' rest2 (by omega) (by omega)]
          · simp only [h92, if_false]
            rw [ih f2' rest (by omega) (by omega)]

/-- Helper: a hex digit emitted by the escaper decodes to its value. -/
theorem hexVal_hexDigitChar : ∀ d : Nat, d < 16 → hexVal (hexDigitChar d) = some d := by
  decide

/-- Helper: the JavaScript parse of one unicode-escaped codepoint (no quote,
below 0x10000) recovers exactly that codepoint. -/
theorem jsStringBody_pyEscapeChar (c : Nat) (tail : List Nat)
    (hq : c ≠ 39) (hlt : c < 65536) :
    jsStringBody (pyEscapeChar c ++ tail) = (jsStringBody tail).map (fun s => c :: s) := by
  by_cases h92 : c = 92
  · subst h92
    show jsStringBodyAux _ _ = _
    simp only [pyEscapeChar, if_pos rfl, List.cons_append, List.length_cons]
    simp only [jsStringBodyAux, jsEscape, jsEscapeHead, jsEscapeRest]
    norm_num
    rw [jsStringBodyAux_fuel (tail.length + 1) tail.length tail (by omega) (le_refl _)]
    rfl
  · by_cases h9 : c = 9
    · subst h9
      show jsStringBodyAux _ _ = _
      simp only [pyEscapeChar, List.cons_append, List.length_cons]
      norm_num
      simp only [jsStringBodyAux, jsEscape, jsEscapeHead, jsEscapeRest]
      norm_num
      rw [jsStringBodyAux_fuel (tail.length + 1) tail.length tail (by omega) (le_refl _)]
      rfl
    · by_cases h10 : c = 10
      · subst h10
        show jsStringBodyAux _ _ = _
        simp only [pyEscapeChar, List.cons_append, List.length_cons]
        norm_num
        simp only [jsStringBodyAux, jsEscape, jsEscapeHead, jsEscapeRest]
        norm_num
        rw [jsStringBodyAux_fuel (tail.length + 1) tail.length tail (by omega) (le_refl _)]
        rfl
      · by_cases h13 : c = 13
        · subst h13
          show jsStringBodyAux _ _ = _
          simp only [pyEscapeChar, List.cons_append, List.length_cons]
          norm_num
          simp only [jsStringBodyAux, jsEscape, jsEscapeHead, jsEscapeRest]
          norm_num
          rw [jsStringBodyAux_fuel (tail.length + 1) tail.length tail (by omega) (le_refl _)]
          rfl
        · by_cases hprint : 32 ≤ c ∧ c ≤ 126
          · have hrw : pyEscapeChar c = [c] := by
              simp [pyEscapeChar, h92, h9, h10, h13, hprint]
            rw [hrw]
            show jsStringBodyAux _ _ = _
            simp only [List.cons_append, List.nil_append, List.length_cons]
            simp only [jsStringBodyAux]
            have hcond : ¬ (c = 39 ∨ c = 10 ∨ c = 13 ∨ c = 8232 ∨ c = 8233) := by
              omega
            simp only [hcond, if_false, h92, if_false]
            rfl
          · by_cases h256 : c < 256
            · have hrw : pyEscapeChar c = [92, 120, hexDigitChar (c / 16 % 16),
                  hexDigitChar (c % 16)] := by
                simp [pyEscapeChar, h92, h9, h10, h13, hprint, h256, hexDigits]
              rw [hrw]
              show jsStringBodyAux _ _ = _
              simp only [List.cons_append, List.nil_append, List.length_cons]
              simp only [jsStringBodyAux, jsEscape, jsEscapeHead, jsEscapeRest]
              norm_num
              rw [hexVal_hexDigitChar _ (by omega), hexVal_hexDigitChar _ (by omega)]
              simp only [Option.some_bind, Function.comp, Option.map_some']
              rw [jsStringBodyAux_fuel (tail.length + 3) tail.length tail
                (by omega) (le_refl _)]
              have hval : 16 * (c / 16 % 16) + c % 16 = c := by omega
              rw [hval]
              rfl
            · have hrw : pyEscapeChar c = [92, 117, hexDigitChar (c / 16 / 16 / 16 % 16),
                  hexDigitChar (c / 16 / 16 % 16), hexDigitChar (c / 16 % 16),
                  hexDigitChar (c % 16)] := by
                simp [pyEscapeChar, h92, h9, h10, h13, hprint, h256, hlt, hexDigits]
              rw [hrw]
              show jsStringBodyAux _ _ = _
              simp only [List.cons_append, List.nil_append, List.length_cons]
              simp only [jsStringBodyAux, jsEscape, jsEscapeHead, jsEscapeRest]
              norm_num
              rw [hexVal_hexDigitChar _ (by omega), hexVal_hexDigitChar _ (by omega),
                hexVal_hexDigitChar _ (by omega), hexVal_hexDigitChar _ (by omega)]
              simp only [Option.some_bind, Function.comp, Option.map_some']
              rw [jsStringBodyAux_fuel (tail.length + 5) tail.length tail
                (by omega) (le_refl _)]
              have hval : 4096 * (c / 16 / 16 / 16 % 16) + 256 * (c / 16 / 16 % 16)
                  + 16 * (c / 16 % 16) + c % 16 = c := by omega
              rw [hval]
              rfl

/-- Helper: the JavaScript parse of a whole unicode-escaped value (no
quotes, all codepoints below 0x10000) recovers the value. -/
theorem jsStringBody_pyUnicodeEscape (v : List Nat)
    (h : ∀ c ∈ v, c ≠ 39 ∧ c < 65536) :
    jsStringBody (pyUnicodeEscape v) = some v := by
  induction v with
  | nil => rfl
  | cons c rest ih =>
    have hc := h c (by simp)
    have hrest := ih (fun x hx => h x (by simp [hx]))
    have hsplit : pyUnicodeEscape (c :: rest) = pyEscapeChar c ++ pyUnicodeEscape rest := by
      simp [pyUnicodeEscape]
    rw [hsplit, jsStringBody_pyEscapeChar c _ hc.1 hc.2, hrest]
    rfl

/-- Helper: a key free of quotes, backslashes and line terminators passes
through the literal verbatim. -/
theorem jsStringBody_plain (k : List Nat)
    (h : ∀ c ∈ k, c ≠ 39 ∧ c ≠ 92 ∧ c ≠ 10 ∧ c ≠ 13 ∧ c ≠ 8232 ∧ c ≠ 8233) :
    jsStringBody k = some k := by
  induction k with
  | nil => rfl
  | cons c rest ih =>
    obtain ⟨h39, h92, h10, h13, ha, hb⟩ := h c (by simp)
    have hrest := ih (fun x hx => h x (by simp [hx]))
    show jsStringBodyAux _ _ = _
    simp only [List.length_cons, jsStringBodyAux]
    have hcond : ¬ (c = 39 ∨ c = 10 ∨ c = 13 ∨ c = 8232 ∨ c = 8233) := by
      simp [h39, h10, h13, ha, hb]
    simp only [hcond, if_false, h92, if_false]
    rw [show jsStringBodyAux rest.length rest = jsStringBody rest from rfl, hrest]
    rfl

/-- Counterexample to claim C4 as stated: a value consisting of the single
quote character.  unicode-escape leaves the quote untouched (it is printable
ASCII), the spliced literal terminates early and the injected restore script
is malformed, so the round trip does not reproduce the mapping — for values
with quotes nothing is restored at all. -/
theorem localStorage_roundtrip_counterexample :
    localStorage_round_trip [([107], [39])] = none := by
  rfl

/-- Claim C4 (amended): the save/restore round trip reproduces the mapping
exactly provided every key is free of single quotes, backslashes and line
terminators (keys are spliced into the script completely unescaped) and
every value is free of single quotes and of codepoints above 0xFFFF
(unicode-escape never escapes the quote, and renders astral codepoints as
capital-U escapes that JavaScript does not recognize).  Other control and
non-ASCII characters in values do round-trip. -/
theorem localStorage_roundtrip_good (m : List (List Nat × List Nat))
    (hkeys : ∀ kv ∈ m, ∀ c ∈ kv.1,
      c ≠ 39 ∧ c ≠ 92 ∧ c ≠ 10 ∧ c ≠ 13 ∧ c ≠ 8232 ∧ c ≠ 8233)
    (hvals : ∀ kv ∈ m, ∀ c ∈ kv.2, c ≠ 39 ∧ c < 65536) :
    localStorage_round_trip m = some m := by
  induction m with
  | nil => rfl
  | cons kv rest ih =>
    have hitem : setItemStored kv.1 (pyUnicodeEscape kv.2) = some (kv.1, kv.2) := by
      unfold setItemStored
      rw [jsStringBody_plain kv.1 (hkeys kv (by simp)),
        jsStringBody_pyUnicodeEscape kv.2 (hvals kv (by simp))]
    have hrest := ih (fun x hx => hkeys x (by simp [hx]))
      (fun x hx => hvals x (by simp [hx]))
    unfold localStorage_round_trip set_local_storage get_local_storage at hrest ⊢
    simp only [List.map_cons, List.mapM_cons, hitem, hrest, Option.pure_def,
      Option.bind_eq_bind, Option.some_bind]

/-- Witness for localStorage_roundtrip_good: the key k and a value holding a
newline, a non-ASCII é and an A survive the round trip. -/
theorem localStorage_roundtrip_good_witness :
    localStorage_round_trip [([107], [10, 233, 65])] = some [([107], [10, 233, 65])] := by
  exact localStorage_roundtrip_good [([107], [10, 233, 65])] (by decide) (by decide)

/-! ### Profile persistence (save_firefox_profile, src lines 118-156) -/

/-- The fixed snapshot filename _LOCAL_STORAGE_FILE. -/
def localStorageFile : String :=
  "localStorage.json"

/-- save_firefox_profile with remove_old = True (src lines 122-141, 155-156):
the live profile is copied (lock files ignored) into a temp directory whose
resulting contents are tmpCopy — none models a copy that produced no
directory at all; if the temp copy exists and is non-empty it replaces the
permanent profile and the local-storage snapshot is written beside it,
otherwise the temp directory is removed and WhatsAPIException
"Missing tmp firefox profile." is raised, leaving the old profile behind.
The result is the final contents of the permanent profile directory. -/
def save_firefox_profile_remove_old (tmpCopy : Option (List String)) :
    Except String (List String) :=
  match tmpCopy with
  | some items =>
    if items.length > 0 then .ok (items ++ [localStorageFile])
    else .error "Missing tmp firefox profile."
  | none => .error "Missing tmp firefox profile."

/-- Claim C6: when replacing the existing profile, an empty or missing temp
copy makes save_firefox_profile raise the fatal persistence error (the
spec's ProfilePersistenceError, raised in the code as WhatsAPIException
"Missing tmp firefox profile."), and the operation never completes as a
success with an empty persisted profile: any success comes from a non-empty
temp copy, whose contents (plus the storage snapshot) become the persisted
profile. -/
theorem save_profile_fatal_on_empty (tmpCopy : Option (List String)) :
    ((tmpCopy = none ∨ tmpCopy = some []) →
      save_firefox_profile_remove_old tmpCopy = .error "Missing tmp firefox profile.") ∧
    (∀ final, save_firefox_profile_remove_old tmpCopy = .ok final →
      ∃ items, tmpCopy = some items ∧ items ≠ [] ∧
        final = items ++ [localStorageFile] ∧ final ≠ []) := by
  constructor
  · rintro (rfl | rfl) <;> rfl
  · intro final hok
    match tmpCopy with
    | none => simp [save_firefox_profile_remove_old] at hok
    | some items =>
      by_cases hempty : items.length > 0
      · refine ⟨items, rfl, ?_, ?_, ?_⟩
        · intro hnil
          rw [hnil] at hempty
          simp at hempty
        · simp only [save_firefox_profile_remove_old, if_pos hempty] at hok
          exact (Except.ok.inj hok).symm
        · simp only [save_firefox_profile_remove_old, if_pos hempty] at hok
          rw [← Except.ok.inj hok]
          simp
      · simp [save_firefox_profile_remove_old, hempty] at hok

/-- Witness for save_profile_fatal_on_empty: an empty temp copy raises, and
a one-file temp copy persists that file plus the snapshot. -/
theorem save_profile_fatal_on_empty_witness :
    save_firefox_profile_remove_old (some []) = .error "Missing tmp firefox profile." ∧
    ∃ items, (some ["prefs.js"] : Option (List String)) = some items ∧ items ≠ [] ∧
      ["prefs.js", localStorageFile] = items ++ [localStorageFile] ∧
      ["prefs.js", localStorageFile] ≠ [] := by
  exact ⟨(save_profile_fatal_on_empty (some [])).1 (Or.inr rfl),
    (save_profile_fatal_on_empty (some ["prefs.js"])).2 ["prefs.js", localStorageFile] rfl⟩

/-! ### Status probe (get_status, src lines 489-504) -/

/-- The five session states of WhatsAPIDriverStatus. -/
inductive WhatsAPIDriverStatus where
  | Unknown
  | NoDriver
  | NotConnected
  | NotLoggedIn
  | LoggedIn
deriving DecidableEq

/-- The outcome of one find_element_by_css_selector probe: the element is
found, the lookup raises NoSuchElementException, or it raises some other
selenium exception (for example a WebDriverException when the session has
died). -/
inductive ProbeOutcome where
  | found
  | noSuchElement
  | otherError
deriving DecidableEq

/-- The driver state that get_status reads: the session id and the outcomes
of probing the mainPage and qrCode selectors. -/
structure Driver where
  session_id : Option Nat
  mainPageProbe : ProbeOutcome
  qrCodeProbe : ProbeOutcome
deriving DecidableEq

/-- get_status (src lines 489-504): NotConnected when the driver or its
session id is absent; then the mainPage marker probe inside a try/except
that catches exactly NoSuchElementException (treated as the marker being
absent), then likewise the qrCode probe, else Unknown.  An exception of any
other type escapes both except clauses and propagates (the error case). -/
def get_status (driver : Option Driver) : Except String WhatsAPIDriverStatus :=
  match driver with
  | none => .ok .NotConnected
  | some d =>
    match d.session_id with
    | none => .ok .NotConnected
    | some _ =>
      match d.mainPageProbe with
      | .found => .ok .LoggedIn
      | .otherError => .error "WebDriverException"
      | .noSuchElement =>
        match d.qrCodeProbe with
        | .found => .ok .NotLoggedIn
        | .otherError => .error "WebDriverException"
        | .noSuchElement => .ok .Unknown

/-- Counterexample to claim C5 as stated: get_status does not survive every
probe exception — only NoSuchElementException is caught, so a mainPage probe
failing with any other exception (for example WebDriverException from a dead
session) propagates to the caller instead of being treated as the marker
being absent. -/
theorem get_status_raises_counterexample :
    get_status (some ⟨some 0, .otherError, .noSuchElement⟩) = .error "WebDriverException" := by
  rfl

/-- Claim C5 (amended): get_status returns NotConnected when the driver or
its session id is absent, LoggedIn when the main-application marker is
found, NotLoggedIn when the main marker is absent and the QR marker is
found, and Unknown when both lookups raise NoSuchElementException;
NoSuchElementException is the only exception treated as a marker being
absent, and a probe exception of any other type propagates to the caller. -/
theorem get_status_characterization :
    (get_status none = .ok .NotConnected) ∧
    (∀ p q, get_status (some ⟨none, p, q⟩) = .ok .NotConnected) ∧
    (∀ s q, get_status (some ⟨some s, .found, q⟩) = .ok .LoggedIn) ∧
    (∀ s, get_status (some ⟨some s, .noSuchElement, .found⟩) = .ok .NotLoggedIn) ∧
    (∀ s, get_status (some ⟨some s, .noSuchElement, .noSuchElement⟩) = .ok .Unknown) ∧
    (∀ s q, get_status (some ⟨some s, .otherError, q⟩) = .error "WebDriverException") ∧
    (∀ s, get_status (some ⟨some s, .noSuchElement, .otherError⟩)
        = .error "WebDriverException") := by
  exact ⟨rfl, fun p q => rfl, fun s q => rfl, fun s => rfl, fun s => rfl,
    fun s q => rfl, fun s => rfl⟩

/-! ### QR pairing operations (get_qr / reload_qr, src lines 285-298, 486-487) -/

/-- The page state the QR operations read: whether the page source contains
the stale-code prompt "Click to reload QR code", and whether the qrCode
element is present (after login succeeds the QR element is gone). -/
structure QRPage where
  hasReloadPrompt : Bool
  qrElementPresent : Bool
deriving DecidableEq

/-- reload_qr (src 486-487): click the qrCode element; the lookup raises
NoSuchElementException when the element is absent. -/
def reload_qr (p : QRPage) : Except String Unit :=
  if p.qrElementPresent then .ok () else .error "NoSuchElementException"

/-- get_qr (src 285-298): if the stale prompt is shown, first click through
via reload_qr; then look up the qrCode element and screenshot it to a file
whose path is returned.  Both element lookups raise NoSuchElementException
when the element is absent. -/
def get_qr (p : QRPage) : Except String String :=
  match (if p.hasReloadPrompt then reload_qr p else .ok ()) with
  | .error e => .error e
  | .ok _ =>
    if p.qrElementPresent then .ok "qr.png" else .error "NoSuchElementException"

/-- Counterexample to claim C9 as stated: after login has succeeded the QR
element is gone, and getPairingCode (get_qr) raises NoSuchElementException
instead of being a no-op that returns a last known artifact or an empty
result; invalidateCode (reload_qr) likewise raises. -/
theorem get_qr_post_login_counterexample :
    get_qr ⟨false, false⟩ = .error "NoSuchElementException" ∧
    reload_qr ⟨false, false⟩ = .error "NoSuchElementException" := by
  exact ⟨rfl, rfl⟩

/-- Claim C9 (amended): in every page state in which the QR element is no
longer displayed (in particular after a successful login), get_qr and
reload_qr fail with the propagated NoSuchElementException of the element
lookup; they are not post-login no-ops. -/
theorem qr_ops_raise_post_login (hasPrompt : Bool) :
    get_qr ⟨hasPrompt, false⟩ = .error "NoSuchElementException" ∧
    reload_qr ⟨hasPrompt, false⟩ = .error "NoSuchElementException" := by
  cases hasPrompt <;> exact ⟨rfl, rfl⟩

/-! ### Lookup by id (src lines 436-463) -/

/-- A raw contact record from the bridge's getContact. -/
structure RawContact where
  id : Nat
deriving DecidableEq

/-- The typed Contact wrapper. -/
structure Contact where
  id : Nat
deriving DecidableEq

/-- get_message_by_id (src 436-448): the bridge's falsy result for an
unknown id (None/False, modelled as none) is returned as-is; a truthy raw
record is classified through factory_message. -/
def get_message_by_id (bridgeResult : Option RawMessage) : Option Message :=
  match bridgeResult with
  | some r => some (factory_message r)
  | none => none

/-- get_contact_from_id (src 450-456): a None contact from the bridge raises
ContactNotFoundError. -/
def get_contact_from_id (contact_id : String) (bridgeResult : Option RawContact) :
    Except String Contact :=
  match bridgeResult with
  | none => .error ("Contact " ++ contact_id ++ " not found")
  | some c => .ok ⟨c.id⟩

/-- get_chat_from_id (src 458-463): a falsy chat from the bridge raises
ChatNotFoundError. -/
def get_chat_from_id (chat_id : String) (bridgeResult : Option RawChat) :
    Except String Chat :=
  match bridgeResult with
  | some c => .ok (factory_chat c)
  | none => .error ("Chat " ++ chat_id ++ " not found")

/-- Claim C10: for an id the bridge does not know, get_message_by_id passes
the bridge's falsy result through as an empty success and never raises,
while the analogous chat and contact lookups raise their NotFoundError
variants; known ids are classified into typed results in all three. -/
theorem lookup_not_found_policy :
    (get_message_by_id none = none) ∧
    (∀ r, get_message_by_id (some r) = some (factory_message r)) ∧
    (∀ cid, get_contact_from_id cid none = .error ("Contact " ++ cid ++ " not found")) ∧
    (∀ cid c, get_contact_from_id cid (some c) = .ok ⟨c.id⟩) ∧
    (∀ cid, get_chat_from_id cid none = .error ("Chat " ++ cid ++ " not found")) ∧
    (∀ cid c, get_chat_from_id cid (some c) = .ok (factory_chat c)) := by
  exact ⟨rfl, fun r => rfl, fun cid => rfl, fun cid c => rfl,
    fun cid => rfl, fun cid c => rfl⟩

end WebWhatsAPI
